import Mathlib

/-!
# Verification of the AI-Tools-Framework registry and dispatch contract

A shallow embedding, in Lean 4, of the tool registry and the protocol
adapters of the `ai-tools-framework` repository:

* `src/core/base.py` — parameter / result model and `BaseTool.validate_parameters`;
* `src/core/registry.py` — `ToolRegistry.register`, `ToolRegistry.get_tool`,
  `ToolRegistry.get_tool_definition`;
* `src/interfaces/mcp_server.py` — the MCP `call_tool` handler and
  `_convert_parameters_to_schema`;
* `src/ai_tools_stdio_mcp.py` — the stdio `tools/call` handler;
* `src/interfaces/openai_api.py` — the chat-completions tool-call loop, the
  direct-execution endpoint, and `_convert_to_openai_schema`.

Python `Any` values appearing in configurations, parameter defaults and
enumerations are embedded as the scalar type `PyVal` (`None`, `bool`, `int`,
`str`); JSON-schema property values, which may also be lists, are embedded as
`JVal`.  Python dictionaries are embedded as association lists with
insertion-order semantics (`dictGet`, `dictInsert`).
-/

set_option autoImplicit false

deriving instance DecidableEq for Except

namespace AITools

/-- Embedding of the Python scalar values (`None`, `bool`, `int`, `str`) that
appear as tool configurations, argument values, parameter defaults and
enumeration members in the framework. -/
inductive PyVal where
  | none
  | bool (b : Bool)
  | int (n : Int)
  | str (s : String)
deriving DecidableEq, Repr

/-- JSON-ish value appearing inside a generated JSON-schema property object:
either a scalar or a list of scalars (the `enum` array). -/
inductive JVal where
  | prim (v : PyVal)
  | arr (vs : List PyVal)
deriving DecidableEq, Repr

/-- Python `d.get(key)` / `key in d` lookup on a dictionary embedded as an
association list (keys are unique in every dictionary the code builds). -/
def dictGet {α : Type} : List (String × α) → String → Option α
  | [], _ => Option.none
  | (k, v) :: rest, key => if k = key then some v else dictGet rest key

/-- Python `d[key] = v`: replaces the binding in place if the key is present,
otherwise appends it (insertion order). -/
def dictInsert {α : Type} : List (String × α) → String → α → List (String × α)
  | [], key, v => [(key, v)]
  | (k, w) :: rest, key, v =>
    if k = key then (key, v) :: rest else (k, w) :: dictInsert rest key v

theorem dictGet_eq_some_mem {α : Type} {l : List (String × α)} {k : String} {v : α}
    (h : dictGet l k = some v) : (k, v) ∈ l := by
  induction l with
  | nil => simp [dictGet] at h
  | cons p rest ih =>
    obtain ⟨k', v'⟩ := p
    by_cases hk : k' = k
    · subst hk
      simp [dictGet] at h
      simp [h]
    · simp [dictGet, hk] at h
      exact List.mem_cons_of_mem _ (ih h)

theorem dictGet_dictInsert {α : Type} (l : List (String × α)) (k key : String) (v : α) :
    dictGet (dictInsert l k v) key = if k = key then some v else dictGet l key := by
  induction l with
  | nil => by_cases h : k = key <;> simp [dictGet, dictInsert, h]
  | cons p rest ih =>
    obtain ⟨k', v'⟩ := p
    by_cases h1 : k' = k
    · subst h1
      by_cases h2 : k' = key <;> simp [dictGet, dictInsert, h2]
    · by_cases h2 : k' = key
      · subst h2
        have hk : ¬ k = k' := fun h => h1 h.symm
        simp [dictGet, dictInsert, h1, hk]
      · simp [dictGet, dictInsert, h1, h2, ih]

theorem dictInsert_of_not_present {α : Type} (l : List (String × α)) (k : String) (v : α)
    (h : dictGet l k = Option.none) : dictInsert l k v = l ++ [(k, v)] := by
  induction l with
  | nil => simp [dictInsert]
  | cons p rest ih =>
    obtain ⟨k', v'⟩ := p
    by_cases hk : k' = k
    · subst hk
      simp [dictGet] at h
    · simp [dictGet, hk] at h
      simp [dictInsert, hk, ih h]

theorem dictGet_append {α : Type} (l1 l2 : List (String × α)) (k : String) :
    dictGet (l1 ++ l2) k = ((dictGet l1 k).rec (dictGet l2 k) fun v => some v) := by
  induction l1 with
  | nil => simp [dictGet]
  | cons p rest ih =>
    obtain ⟨k', v'⟩ := p
    by_cases hk : k' = k <;> simp [dictGet, hk, ih]

/-! ## Numeric code of a configuration

`ToolRegistry.get_tool` derives its cache key as
`f"{tool_name}_{hash(str(sorted((config or {}).items())))}"`.  The composite
`hash ∘ str` on the sorted item list is embedded as the injective numeric code
`configHash` below: `str` on distinct sorted item lists yields distinct text,
and CPython's deterministic per-process string hash is modelled as collision-free
on those texts (the embedding does not reproduce SipHash). -/

/-- Positional base-1114113 code of a character list.  Characters are valid
Unicode scalars, so each digit `c.toNat + 1` lies in `[1, 1114112]`. -/
def encChars : List Char → Nat
  | [] => 0
  | c :: cs => c.toNat + 1 + 1114113 * encChars cs

/-- Injective numeric code of a string. -/
def encStr (s : String) : Nat := encChars s.data

theorem char_toNat_lt (c : Char) : c.toNat < 1114112 := by
  have h := c.valid
  have h2 : c.toNat = c.val.toNat := rfl
  rcases h with h | h <;> omega

theorem encChars_inj : ∀ l1 l2 : List Char, encChars l1 = encChars l2 → l1 = l2 := by
  intro l1
  induction l1 with
  | nil =>
    intro l2 h
    cases l2 with
    | nil => rfl
    | cons d ds =>
      exfalso
      simp only [encChars] at h
      omega
  | cons c cs ih =>
    intro l2 h
    cases l2 with
    | nil =>
      exfalso
      simp only [encChars] at h
      omega
    | cons d ds =>
      simp only [encChars] at h
      have hc := char_toNat_lt c
      have hd := char_toNat_lt d
      have h1 : c.toNat = d.toNat ∧ encChars cs = encChars ds := by constructor <;> omega
      have hcd : c = d := by
        have := congrArg Char.ofNat h1.1
        rwa [Char.ofNat_toNat, Char.ofNat_toNat] at this
      exact hcd ▸ congrArg (List.cons c) (ih ds h1.2)

theorem encStr_inj {s t : String} (h : encStr s = encStr t) : s = t := by
  cases s with
  | mk l1 =>
    cases t with
    | mk l2 => exact congrArg String.mk (encChars_inj l1 l2 h)

/-- Injective numeric code of a scalar value. -/
def encodePyVal : PyVal → Nat
  | PyVal.none => Nat.pair 0 0
  | PyVal.bool b => Nat.pair 1 (cond b 1 0)
  | PyVal.int n => Nat.pair 2 (Nat.pair n.toNat (-n).toNat)
  | PyVal.str s => Nat.pair 3 (encStr s)

theorem encodePyVal_inj : ∀ v w : PyVal, encodePyVal v = encodePyVal w → v = w := by
  intro v w h
  cases v <;> cases w <;>
    simp only [encodePyVal, Nat.pair_eq_pair] at h ⊢ <;> try omega
  case bool.bool b c =>
    cases b <;> cases c <;> simp_all
  case int.int n m =>
    congr 1
    omega
  case str.str s t =>
    exact congrArg PyVal.str (encStr_inj h.2)

/-- Injective numeric code of an item list. -/
def encodeItems : List (String × PyVal) → Nat
  | [] => 0
  | (k, v) :: rest => Nat.pair (Nat.pair (encStr k) (encodePyVal v)) (encodeItems rest) + 1

theorem encodeItems_inj : ∀ l1 l2 : List (String × PyVal),
    encodeItems l1 = encodeItems l2 → l1 = l2 := by
  intro l1
  induction l1 with
  | nil =>
    intro l2 h
    cases l2 with
    | nil => rfl
    | cons q rest => obtain ⟨k, v⟩ := q; simp [encodeItems] at h
  | cons p ps ih =>
    intro l2 h
    obtain ⟨k, v⟩ := p
    cases l2 with
    | nil => simp [encodeItems] at h
    | cons q qs =>
      obtain ⟨k2, v2⟩ := q
      simp only [encodeItems, Nat.add_right_cancel_iff, Nat.pair_eq_pair] at h
      obtain ⟨⟨hk, hv⟩, hrest⟩ := h
      rw [encStr_inj hk, encodePyVal_inj v v2 hv, ih qs hrest]

/-! ## Python `sorted` on dictionary items, decimal rendering, and the cache key -/

/-- Python `<` on strings: lexicographic comparison by Unicode code point. -/
def charListLt : List Char → List Char → Bool
  | [], [] => false
  | [], _ :: _ => true
  | _ :: _, [] => false
  | c :: cs, d :: ds =>
    if c.toNat < d.toNat then true
    else if d.toNat < c.toNat then false
    else charListLt cs ds

def strLt (a b : String) : Bool := charListLt a.data b.data

/-- Stable insertion of one item into a key-sorted item list (items are
`(key, value)` tuples; Python compares tuples lexicographically, and since the
keys of one dictionary are distinct the comparison never reaches the values). -/
def insertSorted (p : String × PyVal) : List (String × PyVal) → List (String × PyVal)
  | [] => [p]
  | q :: rest => if strLt p.1 q.1 then p :: q :: rest else q :: insertSorted p rest

/-- Embedding of Python `sorted(d.items())` (ascending by key). -/
def sortItems : List (String × PyVal) → List (String × PyVal)
  | [] => []
  | p :: rest => insertSorted p (sortItems rest)

/-- Embedding of Python `config or {}`: `None` and the empty (falsy) dictionary
both yield `{}`, every non-empty dictionary yields itself. -/
def configOrEmpty : Option (List (String × PyVal)) → List (String × PyVal)
  | Option.none => []
  | some d => d

/-- Embedding of `hash(str(sorted(items)))` (see the section comment above). -/
def configHash (cfg : List (String × PyVal)) : Nat := encodeItems (sortItems cfg)

/-- Little-endian decimal digits of `n` (with explicit fuel so that the
definition is structurally recursive and kernel-reducible). -/
def natDecimalAux : Nat → Nat → List Char
  | 0, _ => []
  | _ + 1, 0 => []
  | fuel + 1, n + 1 => Nat.digitChar ((n + 1) % 10) :: natDecimalAux fuel ((n + 1) / 10)

/-- The decimal rendering of a natural number, as produced by the f-string
`f"{tool_name}_{hash(...)}"` for the (non-negative) embedded hash value. -/
def natDecimal (n : Nat) : List Char :=
  if n = 0 then ['0'] else (natDecimalAux n n).reverse

def decDigitVal (c : Char) : Nat := c.toNat - 48

/-- Decoder of a little-endian decimal digit string; a left inverse of
`natDecimalAux`, giving injectivity of the decimal rendering. -/
def decodeDecLE : List Char → Nat
  | [] => 0
  | c :: cs => decDigitVal c + 10 * decodeDecLE cs

theorem decDigitVal_digitChar : ∀ d : Nat, d < 10 → decDigitVal (Nat.digitChar d) = d := by
  intro d hd
  interval_cases d <;> decide

theorem natDecimalAux_decode : ∀ fuel n : Nat, n ≤ fuel →
    decodeDecLE (natDecimalAux fuel n) = n := by
  intro fuel
  induction fuel with
  | zero =>
    intro n hn
    have : n = 0 := by omega
    subst this
    rfl
  | succ f ih =>
    intro n hn
    match n with
    | 0 => rfl
    | m + 1 =>
      have hdiv : (m + 1) / 10 ≤ f := by
        have := Nat.div_lt_self (Nat.succ_pos m) (by omega : 1 < 10)
        omega
      simp only [natDecimalAux, decodeDecLE, ih _ hdiv,
        decDigitVal_digitChar _ (Nat.mod_lt _ (by omega))]
      omega

theorem natDecimal_inj {n m : Nat} (h : natDecimal n = natDecimal m) : n = m := by
  by_cases hn : n = 0 <;> by_cases hm : m = 0
  · omega
  · exfalso
    simp only [natDecimal, hn, hm, if_pos, if_neg, if_true] at h
    have h2 : natDecimalAux m m = ['0'] := by
      have := congrArg List.reverse h
      simpa using this.symm
    have h3 := natDecimalAux_decode m m (le_refl m)
    rw [h2] at h3
    simp [decodeDecLE, decDigitVal] at h3
    omega
  · exfalso
    simp only [natDecimal, hn, hm, if_neg, if_true] at h
    have h2 : natDecimalAux n n = ['0'] := by
      have := congrArg List.reverse h
      simpa using this
    have h3 := natDecimalAux_decode n n (le_refl n)
    rw [h2] at h3
    simp [decodeDecLE, decDigitVal] at h3
    omega
  · simp only [natDecimal, hn, hm, if_neg] at h
    have h2 : natDecimalAux n n = natDecimalAux m m := by
      have := congrArg List.reverse h
      simpa using this
    have h3 := natDecimalAux_decode n n (le_refl n)
    have h4 := natDecimalAux_decode m m (le_refl m)
    rw [h2] at h3
    omega

theorem natDecimalAux_digits : ∀ fuel n : Nat, ∀ c ∈ natDecimalAux fuel n,
    ∃ d : Nat, d < 10 ∧ c = Nat.digitChar d := by
  intro fuel
  induction fuel with
  | zero => intro n c hc; simp [natDecimalAux] at hc
  | succ f ih =>
    intro n c hc
    match n with
    | 0 => simp [natDecimalAux] at hc
    | m + 1 =>
      simp only [natDecimalAux, List.mem_cons] at hc
      rcases hc with hc | hc
      · exact ⟨(m + 1) % 10, Nat.mod_lt _ (by omega), hc⟩
      · exact ih _ c hc

theorem digitChar_ne_underscore : ∀ d : Nat, d < 10 → Nat.digitChar d ≠ '_' := by
  intro d hd
  interval_cases d <;> decide

theorem natDecimal_no_underscore (n : Nat) : '_' ∉ natDecimal n := by
  by_cases hn : n = 0
  · subst hn; decide
  · simp only [natDecimal, hn, if_neg, if_false]
    intro hmem
    rw [List.mem_reverse] at hmem
    obtain ⟨d, hd, hc⟩ := natDecimalAux_digits n n '_' hmem
    exact digitChar_ne_underscore d hd hc.symm

/-- The cache key computed by `ToolRegistry.get_tool`:
`f"{tool_name}_{hash(str(sorted((config or {}).items())))}"`. -/
def cacheKey (name : String) (config : Option (List (String × PyVal))) : String :=
  name ++ "_" ++ String.mk (natDecimal (configHash (configOrEmpty config)))

theorem underscore_split_left : ∀ x y p q : List Char,
    '_' ∉ x → '_' ∉ y → x ++ '_' :: p = y ++ '_' :: q → x = y ∧ p = q := by
  intro x
  induction x with
  | nil =>
    intro y p q _ hy h
    cases y with
    | nil => simpa using h
    | cons d ys =>
      exfalso
      simp only [List.nil_append, List.cons_append, List.cons.injEq] at h
      exact hy (h.1 ▸ List.mem_cons_self d ys)
  | cons c xs ih =>
    intro y p q hx hy h
    cases y with
    | nil =>
      exfalso
      simp only [List.cons_append, List.nil_append, List.cons.injEq] at h
      exact hx (h.1.symm ▸ List.mem_cons_self c xs)
    | cons d ys =>
      simp only [List.cons_append, List.cons.injEq] at h
      have hx2 : '_' ∉ xs := fun hm => hx (List.mem_cons_of_mem c hm)
      have hy2 : '_' ∉ ys := fun hm => hy (List.mem_cons_of_mem d hm)
      obtain ⟨hxy, hpq⟩ := ih ys p q hx2 hy2 h.2
      exact ⟨by rw [h.1, hxy], hpq⟩

theorem underscore_split_right {n1 n2 d1 d2 : List Char}
    (h1 : '_' ∉ d1) (h2 : '_' ∉ d2)
    (h : n1 ++ '_' :: d1 = n2 ++ '_' :: d2) : n1 = n2 ∧ d1 = d2 := by
  have hr : d1.reverse ++ '_' :: n1.reverse = d2.reverse ++ '_' :: n2.reverse := by
    have := congrArg List.reverse h
    simpa [List.reverse_append] using this
  have h1r : '_' ∉ d1.reverse := by simpa using h1
  have h2r : '_' ∉ d2.reverse := by simpa using h2
  obtain ⟨hd, hn⟩ := underscore_split_left _ _ _ _ h1r h2r hr
  constructor
  · have := congrArg List.reverse hn
    simpa using this
  · have := congrArg List.reverse hd
    simpa using this

theorem cacheKey_inj {n1 n2 : String} {c1 c2 : Option (List (String × PyVal))}
    (h : cacheKey n1 c1 = cacheKey n2 c2) :
    n1 = n2 ∧ configHash (configOrEmpty c1) = configHash (configOrEmpty c2) := by
  have hd := congrArg String.data h
  simp only [cacheKey, String.data_append] at hd
  have hd2 : n1.data ++ '_' :: natDecimal (configHash (configOrEmpty c1)) =
      n2.data ++ '_' :: natDecimal (configHash (configOrEmpty c2)) := by
    simpa using hd
  obtain ⟨hn, hdec⟩ := underscore_split_right
    (natDecimal_no_underscore _) (natDecimal_no_underscore _) hd2
  refine ⟨?_, natDecimal_inj hdec⟩
  cases n1 with
  | mk l1 =>
    cases n2 with
    | mk l2 => exact congrArg String.mk hn

/-! ## Data model (`src/core/base.py`) -/

/-- Embedding of `ToolParameter` (pydantic model in `core/base.py`).  A Python
`default` of `None` (the pydantic default) means "no default"; `enum_values`
is `Optional[List[Any]]`. -/
structure ToolParameter where
  name : String
  param_type : String
  description : String
  required : Bool := true
  default : PyVal := PyVal.none
  enum_values : Option (List PyVal) := Option.none
deriving DecidableEq, Repr

/-- Embedding of `ToolDefinition` (pydantic model in `core/base.py`). -/
structure ToolDefinition where
  name : String
  description : String
  parameters : List ToolParameter
  category : String := "general"
  version : String := "1.0.0"
deriving DecidableEq, Repr

/-- Embedding of `ToolResult` (pydantic model in `core/base.py`).  With
`use_enum_values`, `result_type` is carried as its string value. -/
structure ToolResult where
  success : Bool
  result_type : String
  content : PyVal
  metadata : List (String × PyVal) := []
  error_message : Option String := Option.none
deriving DecidableEq, Repr

/-! ## Registry (`src/core/registry.py`)

A tool class is embedded by the `ToolDefinition` its instances report: the
claims about the registry assume (explicitly, in C5) that every instance of a
registered class yields the same definition, so `definition` is a per-class
constant here.  Object identity of constructed instances is embedded by the
`instId` field: `get_tool` stamps each freshly constructed instance with a
fresh number, so two instances are "identity-distinct" exactly when their
`instId`s differ. -/

structure ToolClass where
  defn : ToolDefinition
deriving DecidableEq, Repr

structure ToolInstance where
  cls : ToolClass
  config : Option (List (String × PyVal))
  instId : Nat
deriving DecidableEq, Repr

/-- The mutable state of a `ToolRegistry`: `_tools` maps a tool name to its
class, `_instances` is the cache keyed by the `cacheKey` string; `nextId` is
the next fresh identity stamp. -/
structure RegistryState where
  tools : List (String × ToolClass)
  instances : List (String × ToolInstance)
  nextId : Nat
deriving DecidableEq, Repr

namespace ToolRegistry

/-- Embedding of `ToolRegistry.__init__`. -/
def empty : RegistryState := { tools := [], instances := [], nextId := 0 }

/-- Embedding of `ToolRegistry.register`: creates a throwaway instance to read
`definition.name` and stores the class under that name. -/
def register (st : RegistryState) (tool_class : ToolClass) : RegistryState :=
  { st with tools := dictInsert st.tools tool_class.defn.name tool_class }

/-- Embedding of `ToolRegistry.get_tool`: computes the cache key, returns the cached
instance on a hit; otherwise fails with `ValueError(f"Tool not found: ...")`
for an unregistered name, or constructs, caches and returns a fresh instance.
The result also carries the updated registry state. -/
def get_tool (st : RegistryState) (tool_name : String)
    (config : Option (List (String × PyVal))) :
    Except String (ToolInstance × RegistryState) :=
  let cache_key := cacheKey tool_name config
  match dictGet st.instances cache_key with
  | some inst => Except.ok (inst, st)
  | Option.none =>
    match dictGet st.tools tool_name with
    | Option.none => Except.error ("Tool not found: " ++ tool_name)
    | some tool_class =>
      let inst : ToolInstance :=
        { cls := tool_class, config := config, instId := st.nextId }
      Except.ok (inst,
        { st with instances := dictInsert st.instances cache_key inst,
                  nextId := st.nextId + 1 })

/-- Embedding of `ToolRegistry.get_tool_definition`. -/
def get_tool_definition (st : RegistryState) (tool_name : String) :
    Except String ToolDefinition :=
  match dictGet st.tools tool_name with
  | Option.none => Except.error ("Tool not found: " ++ tool_name)
  | some tool_class => Except.ok tool_class.defn

end ToolRegistry

/-! ## Registry invariants -/

/-- Every class stored in `_tools` is stored under its own definition name
(`register` guarantees this). -/
def WellFormedTools (st : RegistryState) : Prop :=
  ∀ p ∈ st.tools, p.2.defn.name = p.1

/-- Every cache entry was created by a `get_tool` call for a name registered
at that time: its key has the `cacheKey` shape for some registered name `m`,
and the cached instance's class reports definition name `m`. -/
def WellFormedCache (st : RegistryState) : Prop :=
  ∀ q ∈ st.instances, ∃ m c, q.1 = cacheKey m c ∧
    (dictGet st.tools m).isSome ∧ q.2.cls.defn.name = m

/-- Identity stamps in the cache are pairwise distinct and below `nextId`. -/
def FreshIds (st : RegistryState) : Prop :=
  (st.instances.map (fun q => q.2.instId)).Nodup ∧
  ∀ q ∈ st.instances, q.2.instId < st.nextId

def GoodState (st : RegistryState) : Prop :=
  WellFormedTools st ∧ WellFormedCache st ∧ FreshIds st

theorem mem_dictInsert {α : Type} (l : List (String × α)) (k : String) (v : α) :
    ∀ q ∈ dictInsert l k v, q = (k, v) ∨ q ∈ l := by
  induction l with
  | nil => intro q hq; simpa [dictInsert] using hq
  | cons p rest ih =>
    intro q hq
    obtain ⟨k', v'⟩ := p
    by_cases hk : k' = k
    · subst hk
      simp only [dictInsert, if_true, eq_self_iff_true, List.mem_cons] at hq
      rcases hq with hq | hq
      · exact Or.inl hq
      · exact Or.inr (List.mem_cons_of_mem _ hq)
    · simp only [dictInsert, if_neg hk, List.mem_cons] at hq
      rcases hq with hq | hq
      · exact Or.inr (by simp [hq])
      · rcases ih q hq with h | h
        · exact Or.inl h
        · exact Or.inr (List.mem_cons_of_mem _ h)

/-- Characterization of a successful `get_tool` call: either a cache hit
returning the cached instance with unchanged state, or a miss on a registered
name constructing, caching and stamping a fresh instance. -/
theorem get_tool_ok_cases {st : RegistryState} {n : String}
    {c : Option (List (String × PyVal))} {i : ToolInstance} {st' : RegistryState}
    (h : ToolRegistry.get_tool st n c = Except.ok (i, st')) :
    (dictGet st.instances (cacheKey n c) = some i ∧ st' = st) ∨
    (dictGet st.instances (cacheKey n c) = Option.none ∧ ∃ cls,
      dictGet st.tools n = some cls ∧ i = ⟨cls, c, st.nextId⟩ ∧
      st' = { st with
              instances := dictInsert st.instances (cacheKey n c) ⟨cls, c, st.nextId⟩,
              nextId := st.nextId + 1 }) := by
  unfold ToolRegistry.get_tool at h
  cases hq : dictGet st.instances (cacheKey n c) with
  | some j =>
    simp only [hq, Except.ok.injEq, Prod.mk.injEq] at h
    exact Or.inl ⟨by rw [h.1], h.2.symm⟩
  | none =>
    simp only [hq] at h
    cases hr : dictGet st.tools n with
    | none =>
      simp only [hr] at h
      exact Except.noConfusion h
    | some cls =>
      simp only [hr, Except.ok.injEq, Prod.mk.injEq] at h
      exact Or.inr ⟨rfl, cls, rfl, h.1.symm, h.2.symm⟩

theorem get_tool_tools_eq {st : RegistryState} {n : String}
    {c : Option (List (String × PyVal))} {i : ToolInstance} {st' : RegistryState}
    (h : ToolRegistry.get_tool st n c = Except.ok (i, st')) :
    st'.tools = st.tools := by
  rcases get_tool_ok_cases h with ⟨-, h2⟩ | ⟨-, cls, -, -, h2⟩ <;> rw [h2]

/-- After a successful `get_tool`, the returned instance sits in the cache of
the returned state under the computed key. -/
theorem get_tool_cached {st : RegistryState} {n : String}
    {c : Option (List (String × PyVal))} {i : ToolInstance} {st' : RegistryState}
    (h : ToolRegistry.get_tool st n c = Except.ok (i, st')) :
    dictGet st'.instances (cacheKey n c) = some i := by
  rcases get_tool_ok_cases h with ⟨h1, h2⟩ | ⟨h1, cls, hcls, hi, h2⟩
  · rw [h2]; exact h1
  · rw [h2]
    simp [dictGet_dictInsert, hi]

theorem goodState_empty : GoodState ToolRegistry.empty := by
  refine ⟨?_, ?_, ?_, ?_⟩
  · intro q hq; simp [ToolRegistry.empty] at hq
  · intro q hq; simp [ToolRegistry.empty] at hq
  · simp [ToolRegistry.empty]
  · intro q hq; simp [ToolRegistry.empty] at hq

theorem goodState_register {st : RegistryState} (hg : GoodState st)
    (cls : ToolClass) : GoodState (ToolRegistry.register st cls) := by
  obtain ⟨ht, hc, hf⟩ := hg
  refine ⟨?_, ?_, ?_⟩
  · intro p hp
    rcases mem_dictInsert _ _ _ p hp with h | h
    · rw [h]
    · exact ht p h
  · intro q hq
    obtain ⟨m, c, hkey, hsome, hname⟩ := hc q hq
    refine ⟨m, c, hkey, ?_, hname⟩
    simp only [ToolRegistry.register, dictGet_dictInsert]
    by_cases hm : cls.defn.name = m <;> simp [hm, hsome]
  · exact hf

theorem goodState_get_tool {st : RegistryState} {n : String}
    {c : Option (List (String × PyVal))} {i : ToolInstance} {st' : RegistryState}
    (hg : GoodState st) (h : ToolRegistry.get_tool st n c = Except.ok (i, st')) :
    GoodState st' := by
  obtain ⟨ht, hc, hnd, hlt⟩ := hg
  rcases get_tool_ok_cases h with ⟨-, h2⟩ | ⟨h1, cls, hcls, hi, h2⟩
  · rw [h2]; exact ⟨ht, hc, hnd, hlt⟩
  · rw [h2]
    rw [dictInsert_of_not_present _ _ _ h1]
    refine ⟨ht, ?_, ?_, ?_⟩
    · intro q hq
      rcases List.mem_append.mp hq with hq | hq
      · exact hc q hq
      · simp only [List.mem_singleton] at hq
        refine ⟨n, c, by rw [hq], by simp [hcls], ?_⟩
        rw [hq]
        exact ht (n, cls) (dictGet_eq_some_mem hcls)
    · simp only [List.map_append, List.map_cons, List.map_nil]
      refine List.Nodup.append hnd (List.nodup_singleton _) ?_
      intro x hx hx2
      simp only [List.mem_singleton] at hx2
      obtain ⟨q, hq, hqx⟩ := List.mem_map.mp hx
      have := hlt q hq
      omega
    · intro q hq
      show q.2.instId < st.nextId + 1
      rcases List.mem_append.mp hq with hq | hq
      · have := hlt q hq
        omega
      · simp only [List.mem_singleton] at hq
        rw [hq]
        simp

/-- Structural (order-independent key/value) equality of two configurations:
equality of the key-sorted item lists. -/
def structEq (c1 c2 : List (String × PyVal)) : Prop := sortItems c1 = sortItems c2

instance structEqDecidable (c1 c2 : List (String × PyVal)) : Decidable (structEq c1 c2) := by
  unfold structEq
  infer_instance

/-- Sanity check: `structEq` is insensitive to key order, as required of the
structural configuration equality. -/
theorem structEq_key_order_demo :
    structEq [("a", PyVal.int 1), ("b", PyVal.int 2)]
      [("b", PyVal.int 2), ("a", PyVal.int 1)] := by
  decide

/-! ## Sample registry used by the witnesses -/

def sampleDefn : ToolDefinition :=
  { name := "echo", description := "echo a message", parameters := [] }

def sampleClass : ToolClass := { defn := sampleDefn }

def sampleState : RegistryState := ToolRegistry.register ToolRegistry.empty sampleClass

def sampleInst : ToolInstance :=
  { cls := sampleClass, config := Option.none, instId := 0 }

def sampleState1 : RegistryState :=
  { tools := [("echo", sampleClass)], instances := [("echo_0", sampleInst)], nextId := 1 }

theorem goodState_sample : GoodState sampleState :=
  goodState_register goodState_empty sampleClass

/-! ## Claims about the registry -/

/-- Core of the unregistered-name analysis, shared by the registry-level and
adapter-level theorems: under the cache well-formedness assumption an
unregistered name can never hit the cache (cache keys embed their name, and
the decimal hash rendering contains no underscore), so `get_tool` raises. -/
theorem get_tool_error_of_unregistered (st : RegistryState) (n : String)
    (cfg : Option (List (String × PyVal)))
    (hcache : WellFormedCache st) (hn : dictGet st.tools n = Option.none) :
    ToolRegistry.get_tool st n cfg = Except.error ("Tool not found: " ++ n) := by
  have hmiss : dictGet st.instances (cacheKey n cfg) = Option.none := by
    cases hq : dictGet st.instances (cacheKey n cfg) with
    | none => rfl
    | some inst =>
      exfalso
      obtain ⟨m, c, hkey, hsome, -⟩ := hcache _ (dictGet_eq_some_mem hq)
      obtain ⟨hnm, -⟩ := cacheKey_inj hkey
      rw [← hnm, hn] at hsome
      simp at hsome
  unfold ToolRegistry.get_tool
  simp only [hmiss, hn]

/-- C1: for every tool name `n` that is not a key of the registered-tools map,
assuming every cached instance was created by a prior `get_tool` call for a
registered name, `ToolRegistry.get_tool n config` (for any config) and
`ToolRegistry.get_tool_definition n` fail with the not-found error naming `n`
and never return a value. -/
theorem get_tool_unregistered_not_found (st : RegistryState) (n : String)
    (cfg : Option (List (String × PyVal)))
    (hcache : WellFormedCache st) (hn : dictGet st.tools n = Option.none) :
    ToolRegistry.get_tool st n cfg = Except.error ("Tool not found: " ++ n) ∧
    ToolRegistry.get_tool_definition st n = Except.error ("Tool not found: " ++ n) := by
  constructor
  · exact get_tool_error_of_unregistered st n cfg hcache hn
  · unfold ToolRegistry.get_tool_definition
    simp only [hn]

theorem get_tool_unregistered_not_found_witness :
    ToolRegistry.get_tool sampleState "missing" Option.none =
      Except.error ("Tool not found: " ++ "missing") ∧
    ToolRegistry.get_tool_definition sampleState "missing" =
      Except.error ("Tool not found: " ++ "missing") :=
  get_tool_unregistered_not_found sampleState "missing" Option.none
    goodState_sample.2.1 (by decide)

/-- C5: for every name registered via `ToolRegistry.register` (the model makes
the claim's assumption that every instance of a class reports the same
definition), a successful `get_tool n config` returns an instance whose
`definition.name` equals `n`. -/
theorem get_tool_definition_name_eq (st : RegistryState) (n : String)
    (cfg : Option (List (String × PyVal))) (inst : ToolInstance) (st' : RegistryState)
    (hg : GoodState st)
    (h : ToolRegistry.get_tool st n cfg = Except.ok (inst, st')) :
    inst.cls.defn.name = n := by
  obtain ⟨ht, hc, -⟩ := hg
  rcases get_tool_ok_cases h with ⟨h1, -⟩ | ⟨-, cls, hcls, hi, -⟩
  · obtain ⟨m, c, hkey, -, hname⟩ := hc _ (dictGet_eq_some_mem h1)
    obtain ⟨hnm, -⟩ := cacheKey_inj hkey
    exact hname.trans hnm.symm
  · rw [hi]
    exact ht _ (dictGet_eq_some_mem hcls)

theorem get_tool_definition_name_eq_witness : sampleInst.cls.defn.name = "echo" :=
  get_tool_definition_name_eq sampleState "echo" Option.none sampleInst sampleState1
    goodState_sample (by decide)

/-- C4: starting from a well-formed registry with `n` registered, two
consecutive `get_tool` calls for `n` return the identity-same instance when
the two configurations are structurally equal, and identity-distinct
instances (distinct identity stamps) when they are structurally different. -/
theorem get_tool_cache_structural (st : RegistryState) (n : String)
    (c1 c2 : List (String × PyVal)) (cls : ToolClass)
    (i1 i2 : ToolInstance) (st1 st2 : RegistryState)
    (hg : GoodState st) (_hreg : dictGet st.tools n = some cls)
    (h1 : ToolRegistry.get_tool st n (some c1) = Except.ok (i1, st1))
    (h2 : ToolRegistry.get_tool st1 n (some c2) = Except.ok (i2, st2)) :
    (structEq c1 c2 → i1 = i2) ∧ (¬ structEq c1 c2 → i1.instId ≠ i2.instId) := by
  have hc1 : dictGet st1.instances (cacheKey n (some c1)) = some i1 := get_tool_cached h1
  constructor
  · intro hs
    have hkey : cacheKey n (some c2) = cacheKey n (some c1) := by
      unfold structEq at hs
      unfold cacheKey configHash configOrEmpty
      rw [hs]
    rcases get_tool_ok_cases h2 with ⟨hhit, -⟩ | ⟨hmissk, -⟩
    · rw [hkey, hc1] at hhit
      exact Option.some_inj.mp hhit
    · rw [hkey, hc1] at hmissk
      exact Option.noConfusion hmissk
  · intro hs hid
    have hkey : cacheKey n (some c1) ≠ cacheKey n (some c2) := by
      intro he
      obtain ⟨-, hh⟩ := cacheKey_inj he
      exact hs (encodeItems_inj _ _ hh)
    obtain ⟨-, -, hnd, hlt⟩ := goodState_get_tool hg h1
    rcases get_tool_ok_cases h2 with ⟨hhit, -⟩ | ⟨-, cls2, -, hi2, -⟩
    · have hm1 := dictGet_eq_some_mem hc1
      have hm2 := dictGet_eq_some_mem hhit
      have heq := List.inj_on_of_nodup_map hnd hm1 hm2 hid
      exact hkey (congrArg Prod.fst heq)
    · have hlt1 : i1.instId < st1.nextId := hlt _ (dictGet_eq_some_mem hc1)
      have hid2 : i1.instId = st1.nextId := by rw [hid, hi2]
      omega

def sampleInstE : ToolInstance :=
  { cls := sampleClass, config := some [], instId := 0 }

def sampleStateE : RegistryState :=
  { tools := [("echo", sampleClass)], instances := [("echo_0", sampleInstE)], nextId := 1 }

def sampleConfigA : List (String × PyVal) := [("a", PyVal.int 1)]

def sampleInstA : ToolInstance :=
  { cls := sampleClass, config := some sampleConfigA, instId := 1 }

theorem get_tool_cache_structural_witness : sampleInstE.instId ≠ sampleInstA.instId :=
  (get_tool_cache_structural sampleState "echo" [] sampleConfigA sampleClass
    sampleInstE sampleInstA sampleStateE
    { tools := [("echo", sampleClass)],
      instances := [("echo_0", sampleInstE), ("echo_94293811", sampleInstA)],
      nextId := 2 }
    goodState_sample (by decide) (by decide) (by decide)).2 (by decide)

/-- C10: for a registered name, `get_tool` with the configuration omitted
(`None`) and `get_tool` with an empty configuration `{}` resolve to the same
cache entry and return the identity-same instance. -/
theorem get_tool_none_eq_empty_config (st : RegistryState) (n : String) (cls : ToolClass)
    (i1 i2 : ToolInstance) (st1 st2 : RegistryState)
    (_hreg : dictGet st.tools n = some cls)
    (h1 : ToolRegistry.get_tool st n Option.none = Except.ok (i1, st1))
    (h2 : ToolRegistry.get_tool st1 n (some []) = Except.ok (i2, st2)) :
    i1 = i2 := by
  have hkey : cacheKey n (some []) = cacheKey n Option.none := rfl
  have hc1 := get_tool_cached h1
  rcases get_tool_ok_cases h2 with ⟨hhit, -⟩ | ⟨hmissk, -⟩
  · rw [hkey, hc1] at hhit
    exact Option.some_inj.mp hhit
  · rw [hkey, hc1] at hmissk
    exact Option.noConfusion hmissk

theorem get_tool_none_eq_empty_config_witness : sampleInst = sampleInst :=
  get_tool_none_eq_empty_config sampleState "echo" sampleClass
    sampleInst sampleInst sampleState1 sampleState1
    (by decide) (by decide) (by decide)

/-! ## `BaseTool.validate_parameters` (`src/core/base.py`) -/

/-- Embedding of `params.get(param_def.name)`: Python returns `None` both for an absent key
and for a key explicitly bound to `None`, so the result is flattened to a
`PyVal` with `PyVal.none` for the absent case. -/
def resolveArg (params : List (String × PyVal)) (name : String) : PyVal :=
  (dictGet params name).getD PyVal.none

/-- The loop body of `BaseTool.validate_parameters`, iterating over the
declared parameters: a required parameter resolving to `None` is replaced by
its declared default when one exists and otherwise raises
`ValueError(f"Missing required parameter: ...")`; every non-`None` resolved
value is recorded under the parameter's name, in declaration order. -/
def validateLoop : List ToolParameter → List (String × PyVal) →
    Except String (List (String × PyVal))
  | [], _ => Except.ok []
  | p :: rest, params =>
    let value := resolveArg params p.name
    if p.required = true ∧ value = PyVal.none then
      if p.default ≠ PyVal.none then
        match validateLoop rest params with
        | Except.error e => Except.error e
        | Except.ok vs => Except.ok ((p.name, p.default) :: vs)
      else Except.error ("Missing required parameter: " ++ p.name)
    else
      if value ≠ PyVal.none then
        match validateLoop rest params with
        | Except.error e => Except.error e
        | Except.ok vs => Except.ok ((p.name, value) :: vs)
      else validateLoop rest params

/-- Embedding of `BaseTool.validate_parameters`. -/
def validate_parameters (defn : ToolDefinition) (params : List (String × PyVal)) :
    Except String (List (String × PyVal)) :=
  validateLoop defn.parameters params

/-- A declared parameter on which validation must fail: required, no declared
default, and no non-`None` supplied value. -/
def failsFor (params : List (String × PyVal)) (p : ToolParameter) : Prop :=
  p.required = true ∧ p.default = PyVal.none ∧ resolveArg params p.name = PyVal.none

theorem validateLoop_error_iff (ps : List ToolParameter) (params : List (String × PyVal)) :
    (∃ e, validateLoop ps params = Except.error e) ↔ ∃ p ∈ ps, failsFor params p := by
  induction ps with
  | nil => simp [validateLoop]
  | cons p rest ih =>
    by_cases h1 : p.required = true ∧ resolveArg params p.name = PyVal.none
    · by_cases h2 : p.default = PyVal.none
      · constructor
        · intro _
          exact ⟨p, List.mem_cons_self p rest, h1.1, h2, h1.2⟩
        · intro _
          exact ⟨"Missing required parameter: " ++ p.name, by simp [validateLoop, h1, h2]⟩
      · simp only [validateLoop, if_pos h1, if_neg (fun h => h2 (not_not.mp (fun hn => hn h)))]
        rw [if_pos (show p.default ≠ PyVal.none from h2)]
        constructor
        · intro ⟨e, he⟩
          rcases hrec : validateLoop rest params with e' | vs
          · obtain ⟨q, hq, hfail⟩ := ih.mp ⟨e', hrec⟩
            exact ⟨q, List.mem_cons_of_mem _ hq, hfail⟩
          · rw [hrec] at he
            exact absurd he (by simp)
        · intro ⟨q, hq, hfail⟩
          rcases List.mem_cons.mp hq with hq | hq
          · exfalso
            rw [hq] at hfail
            exact h2 hfail.2.1
          · obtain ⟨e, he⟩ := ih.mpr ⟨q, hq, hfail⟩
            rw [he]
            exact ⟨e, rfl⟩
    · have hsplit : validateLoop (p :: rest) params =
          (if resolveArg params p.name ≠ PyVal.none then
            match validateLoop rest params with
            | Except.error e => Except.error e
            | Except.ok vs => Except.ok ((p.name, resolveArg params p.name) :: vs)
          else validateLoop rest params) := by
        simp only [validateLoop, if_neg h1]
      constructor
      · intro ⟨e, he⟩
        rw [hsplit] at he
        by_cases hv : resolveArg params p.name ≠ PyVal.none
        · rw [if_pos hv] at he
          rcases hrec : validateLoop rest params with e' | vs
          · obtain ⟨q, hq, hfail⟩ := ih.mp ⟨e', hrec⟩
            exact ⟨q, List.mem_cons_of_mem _ hq, hfail⟩
          · rw [hrec] at he
            exact absurd he (by simp)
        · rw [if_neg hv] at he
          obtain ⟨q, hq, hfail⟩ := ih.mp ⟨e, he⟩
          exact ⟨q, List.mem_cons_of_mem _ hq, hfail⟩
      · intro ⟨q, hq, hfail⟩
        have hq2 : q ∈ rest := by
          rcases List.mem_cons.mp hq with hq | hq
          · exfalso
            rw [hq] at hfail
            exact h1 ⟨hfail.1, hfail.2.2⟩
          · exact hq
        obtain ⟨e, he⟩ := ih.mpr ⟨q, hq2, hfail⟩
        rw [hsplit]
        by_cases hv : resolveArg params p.name ≠ PyVal.none
        · rw [if_pos hv, he]
          exact ⟨e, rfl⟩
        · rw [if_neg hv, he]
          exact ⟨e, rfl⟩

theorem validateLoop_extra_ignored (ps : List ToolParameter)
    (params extra : List (String × PyVal))
    (hextra : ∀ kv ∈ extra, ∀ p ∈ ps, kv.1 ≠ p.name) :
    validateLoop ps (params ++ extra) = validateLoop ps params := by
  induction ps with
  | nil => rfl
  | cons p rest ih =>
    have hres : resolveArg (params ++ extra) p.name = resolveArg params p.name := by
      unfold resolveArg
      rw [dictGet_append]
      cases hq : dictGet params p.name with
      | some v => rfl
      | none =>
        cases hq2 : dictGet extra p.name with
        | none => rfl
        | some v =>
          exfalso
          exact hextra _ (dictGet_eq_some_mem hq2) p (List.mem_cons_self p rest) rfl
    have ihrest := ih (fun kv hkv q hq => hextra kv hkv q (List.mem_cons_of_mem _ hq))
    simp only [validateLoop, hres, ihrest]

/-- C2: `validate_parameters` raises a validation failure iff some declared
parameter is required, has no default, and receives no non-`None` value;
argument keys matching no declared parameter never cause rejection (appending
them to the argument map leaves the outcome unchanged). -/
theorem validate_parameters_error_characterization (defn : ToolDefinition)
    (params : List (String × PyVal)) :
    ((∃ e, validate_parameters defn params = Except.error e) ↔
      ∃ p ∈ defn.parameters, p.required = true ∧ p.default = PyVal.none ∧
        resolveArg params p.name = PyVal.none) ∧
    (∀ extra : List (String × PyVal),
      (∀ kv ∈ extra, ∀ p ∈ defn.parameters, kv.1 ≠ p.name) →
      validate_parameters defn (params ++ extra) = validate_parameters defn params) := by
  constructor
  · exact validateLoop_error_iff defn.parameters params
  · intro extra hextra
    exact validateLoop_extra_ignored defn.parameters params extra hextra

def msgParam : ToolParameter :=
  { name := "msg", param_type := "string", description := "message" }

def msgDefn : ToolDefinition :=
  { name := "echo", description := "echo a message", parameters := [msgParam] }

theorem validate_parameters_error_characterization_witness :
    ((∃ e, validate_parameters msgDefn [] = Except.error e) ↔
      ∃ p ∈ msgDefn.parameters, p.required = true ∧ p.default = PyVal.none ∧
        resolveArg [] p.name = PyVal.none) ∧
    validate_parameters msgDefn ([] ++ [("extra", PyVal.int 1)]) =
      validate_parameters msgDefn [] :=
  ⟨(validate_parameters_error_characterization msgDefn []).1,
    (validate_parameters_error_characterization msgDefn []).2
      [("extra", PyVal.int 1)] (by decide)⟩

/-- The map `validate_parameters` returns on success: each declared parameter
contributes its resolved value (the supplied value, or the declared default
when the parameter is required and the supplied value resolved to `None`),
and is present exactly when that resolved value is not `None`. -/
def cleanedParams (defn : ToolDefinition) (params : List (String × PyVal)) :
    List (String × PyVal) :=
  defn.parameters.filterMap fun p =>
    let v := resolveArg params p.name
    let v2 := if p.required = true ∧ v = PyVal.none then p.default else v
    if v2 ≠ PyVal.none then some (p.name, v2) else Option.none

theorem validateLoop_ok_eq : ∀ (ps : List ToolParameter) (params vs : List (String × PyVal)),
    validateLoop ps params = Except.ok vs →
    vs = ps.filterMap fun p =>
      let v := resolveArg params p.name
      let v2 := if p.required = true ∧ v = PyVal.none then p.default else v
      if v2 ≠ PyVal.none then some (p.name, v2) else Option.none := by
  intro ps
  induction ps with
  | nil =>
    intro params vs h
    simp [validateLoop] at h
    simp [h.symm]
  | cons p rest ih =>
    intro params vs h
    by_cases h1 : p.required = true ∧ resolveArg params p.name = PyVal.none
    · by_cases h2 : p.default = PyVal.none
      · exfalso
        simp [validateLoop, h1, h2] at h
      · rw [show validateLoop (p :: rest) params =
            (match validateLoop rest params with
             | Except.error e => Except.error e
             | Except.ok vs => Except.ok ((p.name, p.default) :: vs)) by
          simp [validateLoop, h1, h2]] at h
        rcases hrec : validateLoop rest params with e | vs'
        · rw [hrec] at h
          exact Except.noConfusion h
        · rw [hrec] at h
          simp only [Except.ok.injEq] at h
          rw [← h]
          simp only [List.filterMap_cons, if_pos h1,
            if_pos (show p.default ≠ PyVal.none from h2)]
          rw [ih params vs' hrec]
    · rw [show validateLoop (p :: rest) params =
          (if resolveArg params p.name ≠ PyVal.none then
            match validateLoop rest params with
            | Except.error e => Except.error e
            | Except.ok vs => Except.ok ((p.name, resolveArg params p.name) :: vs)
          else validateLoop rest params) by
        simp [validateLoop, h1]] at h
      by_cases hv : resolveArg params p.name ≠ PyVal.none
      · rw [if_pos hv] at h
        rcases hrec : validateLoop rest params with e | vs'
        · rw [hrec] at h
          exact Except.noConfusion h
        · rw [hrec] at h
          simp only [Except.ok.injEq] at h
          rw [← h]
          simp only [List.filterMap_cons, if_neg h1, if_pos hv]
          rw [ih params vs' hrec]
      · rw [if_neg hv] at h
        have hvn : resolveArg params p.name = PyVal.none := not_not.mp hv
        simp only [List.filterMap_cons, if_neg h1, if_neg hv]
        exact ih params vs h

theorem resolveArg_cons_none (params : List (String × PyVal)) (n m : String)
    (h : dictGet params n = Option.none) :
    resolveArg ((n, PyVal.none) :: params) m = resolveArg params m := by
  unfold resolveArg
  by_cases hm : n = m
  · subst hm
    simp [dictGet, h]
  · simp [dictGet, hm]

theorem validateLoop_params_ext (ps : List ToolParameter)
    (params1 params2 : List (String × PyVal))
    (h : ∀ m, resolveArg params1 m = resolveArg params2 m) :
    validateLoop ps params1 = validateLoop ps params2 := by
  induction ps with
  | nil => rfl
  | cons p rest ih => simp only [validateLoop, h p.name, ih]

/-- C9: on success, `validate_parameters` returns exactly the declared
parameters whose resolved value is not `None` (`cleanedParams`); a declared
default is substituted only for required parameters, so an omitted optional
parameter is absent from the result even when it declares a default; and an
argument explicitly supplied as `None` behaves like an absent one. -/
theorem validate_parameters_ok_characterization (defn : ToolDefinition)
    (params vs : List (String × PyVal))
    (h : validate_parameters defn params = Except.ok vs) :
    vs = cleanedParams defn params ∧
    ((defn.parameters.map ToolParameter.name).Nodup →
      ∀ p ∈ defn.parameters, p.required = false →
      resolveArg params p.name = PyVal.none → p.name ∉ vs.map Prod.fst) ∧
    (∀ n, dictGet params n = Option.none →
      validate_parameters defn ((n, PyVal.none) :: params) =
        validate_parameters defn params) := by
  have hvs : vs = cleanedParams defn params := validateLoop_ok_eq defn.parameters params vs h
  refine ⟨hvs, ?_, ?_⟩
  · intro hnd p hp hopt hres hmem
    rw [hvs] at hmem
    obtain ⟨entry, hentry, hfst⟩ := List.mem_map.mp hmem
    obtain ⟨q, hq, hfq⟩ := List.mem_filterMap.mp hentry
    by_cases hcond : (if q.required = true ∧ resolveArg params q.name = PyVal.none
        then q.default else resolveArg params q.name) ≠ PyVal.none
    · simp only [if_pos hcond] at hfq
      have hname : q.name = p.name := by
        have : entry.1 = q.name := by
          rw [← Option.some_inj.mp hfq]
        rw [← this, hfst]
      have hqp : q = p := List.inj_on_of_nodup_map hnd hq hp hname
      rw [hqp, hopt, hres] at hcond
      simp at hcond
    · simp only [if_neg hcond] at hfq
      exact Option.noConfusion hfq
  · intro n hn
    exact validateLoop_params_ext defn.parameters _ params
      (fun m => resolveArg_cons_none params n m hn)

def w9Defn : ToolDefinition :=
  { name := "w", description := "w",
    parameters :=
      [{ name := "a", param_type := "string", description := "a",
         required := true, default := PyVal.str "d" },
       { name := "b", param_type := "string", description := "b",
         required := false, default := PyVal.str "e" },
       { name := "c", param_type := "string", description := "c" }] }

def w9Args : List (String × PyVal) := [("c", PyVal.str "x"), ("z", PyVal.int 5)]

theorem validate_parameters_ok_characterization_witness :
    [("a", PyVal.str "d"), ("c", PyVal.str "x")] = cleanedParams w9Defn w9Args :=
  (validate_parameters_ok_characterization w9Defn w9Args
    [("a", PyVal.str "d"), ("c", PyVal.str "x")] (by decide)).1

/-! ## Schema conversion
(`MCPToolServer._convert_parameters_to_schema` in `src/interfaces/mcp_server.py`
and `OpenAIToolAPI._convert_to_openai_schema` in `src/interfaces/openai_api.py`) -/

/-- The keys of the `type_mapping` dictionary in the MCP adapter (each maps to
itself). -/
def recognizedTypes : List String := ["string", "number", "boolean", "array", "object"]

/-- Embedding of `type_mapping.get(param.param_type, "string")`. -/
def typeMappingGet (t : String) : String := if t ∈ recognizedTypes then t else "string"

/-- Python truthiness of the `Optional[List[Any]]` field `enum_values` as used
in `if param.enum_values:`: `None` and the empty list are falsy. -/
def enumTruthy : Option (List PyVal) → Bool
  | some (_ :: _) => true
  | _ => false

/-- The property object the MCP adapter builds for one parameter:
`{"description": ...}`, then `prop["type"]` via `type_mapping.get`, then
`prop["enum"]` when `enum_values` is truthy, then `prop["default"]` when the
default is not `None`. -/
def mcpParamProp (p : ToolParameter) : List (String × JVal) :=
  let prop := [("description", JVal.prim (PyVal.str p.description))]
  let prop := dictInsert prop "type" (JVal.prim (PyVal.str (typeMappingGet p.param_type)))
  let prop := if enumTruthy p.enum_values then
      dictInsert prop "enum" (JVal.arr (p.enum_values.getD [])) else prop
  let prop := if p.default ≠ PyVal.none then
      dictInsert prop "default" (JVal.prim p.default) else prop
  prop

/-- The property object the OpenAI adapter builds for one parameter:
`{"type": param.param_type, "description": ...}` (no type mapping), then
`enum` and `default` under the same conditions as the MCP adapter. -/
def openaiParamProp (p : ToolParameter) : List (String × JVal) :=
  let prop := [("type", JVal.prim (PyVal.str p.param_type)),
               ("description", JVal.prim (PyVal.str p.description))]
  let prop := if enumTruthy p.enum_values then
      dictInsert prop "enum" (JVal.arr (p.enum_values.getD [])) else prop
  let prop := if p.default ≠ PyVal.none then
      dictInsert prop "default" (JVal.prim p.default) else prop
  prop

/-- Embedding of `_convert_parameters_to_schema`: the `properties` object of the MCP
`inputSchema`, keyed by parameter name. -/
def mcpConvertParametersToSchema (ps : List ToolParameter) :
    List (String × List (String × JVal)) :=
  ps.foldl (fun properties p => dictInsert properties p.name (mcpParamProp p)) []

/-- The value `_convert_to_openai_schema` returns:
`{"type": "object", "properties": ..., "required": [...]}`. -/
structure OpenAISchema where
  type : String
  properties : List (String × List (String × JVal))
  required : List String
deriving DecidableEq, Repr

/-- Embedding of `_convert_to_openai_schema`. -/
def openaiConvertToSchema (ps : List ToolParameter) : OpenAISchema :=
  let r := ps.foldl
    (fun (acc : List (String × List (String × JVal)) × List String) p =>
      (dictInsert acc.1 p.name (openaiParamProp p),
       if p.required = true then acc.2 ++ [p.name] else acc.2))
    ([], [])
  { type := "object", properties := r.1, required := r.2 }

/-- Equality of two JSON property objects: same key set, same value at every
key (key order in the underlying dictionaries is irrelevant). -/
def propEquiv (a b : List (String × JVal)) : Prop :=
  ∀ k, dictGet a k = dictGet b k

/-- The `enum` / `default` segment both adapters append after their two-key
base object. -/
def propTail (p : ToolParameter) : List (String × JVal) :=
  (if enumTruthy p.enum_values then [("enum", JVal.arr (p.enum_values.getD []))] else []) ++
  (if p.default ≠ PyVal.none then [("default", JVal.prim p.default)] else [])

theorem mcpParamProp_shape (p : ToolParameter) :
    mcpParamProp p =
      ("description", JVal.prim (PyVal.str p.description)) ::
      ("type", JVal.prim (PyVal.str (typeMappingGet p.param_type))) :: propTail p := by
  by_cases h1 : enumTruthy p.enum_values <;> by_cases h2 : p.default = PyVal.none <;>
    simp [mcpParamProp, propTail, dictInsert, h1, h2]

theorem openaiParamProp_shape (p : ToolParameter) :
    openaiParamProp p =
      ("type", JVal.prim (PyVal.str p.param_type)) ::
      ("description", JVal.prim (PyVal.str p.description)) :: propTail p := by
  by_cases h1 : enumTruthy p.enum_values <;> by_cases h2 : p.default = PyVal.none <;>
    simp [openaiParamProp, propTail, dictInsert, h1, h2]

theorem dictGet_swap_front {α : Type} (a b : String) (x y : α) (s : List (String × α))
    (hab : a ≠ b) (k : String) :
    dictGet ((a, x) :: (b, y) :: s) k = dictGet ((b, y) :: (a, x) :: s) k := by
  by_cases h1 : a = k
  · subst h1
    have : ¬ b = a := fun h => hab h.symm
    simp [dictGet, this]
  · by_cases h2 : b = k
    · subst h2
      simp [dictGet, h1]
    · simp [dictGet, h1, h2]

/-- C7 (amended): for a parameter whose type tag is one of
{string, number, boolean, array, object} the MCP and OpenAI adapters build
equal property objects; for any other tag they differ: the MCP adapter emits
`"type": "string"` while the OpenAI adapter copies the tag unchanged. -/
theorem schema_property_adapters_characterization (p : ToolParameter) :
    (p.param_type ∈ recognizedTypes → propEquiv (mcpParamProp p) (openaiParamProp p)) ∧
    (p.param_type ∉ recognizedTypes →
      dictGet (mcpParamProp p) "type" = some (JVal.prim (PyVal.str "string")) ∧
      dictGet (openaiParamProp p) "type" = some (JVal.prim (PyVal.str p.param_type))) := by
  constructor
  · intro hmem k
    rw [mcpParamProp_shape, openaiParamProp_shape]
    have ht : typeMappingGet p.param_type = p.param_type := if_pos hmem
    rw [ht]
    exact dictGet_swap_front _ _ _ _ _ (by decide) k
  · intro hmem
    have ht : typeMappingGet p.param_type = "string" := if_neg hmem
    rw [mcpParamProp_shape, openaiParamProp_shape, ht]
    constructor <;> simp [dictGet]

def stringEnumParam : ToolParameter :=
  { name := "fmt", param_type := "string", description := "output format",
    required := true, default := PyVal.str "a",
    enum_values := some [PyVal.str "a", PyVal.str "b"] }

theorem schema_property_adapters_characterization_witness :
    propEquiv (mcpParamProp stringEnumParam) (openaiParamProp stringEnumParam) ∧
    (dictGet (mcpParamProp { stringEnumParam with param_type := "integer" }) "type" =
        some (JVal.prim (PyVal.str "string")) ∧
      dictGet (openaiParamProp { stringEnumParam with param_type := "integer" }) "type" =
        some (JVal.prim (PyVal.str "integer"))) :=
  ⟨(schema_property_adapters_characterization stringEnumParam).1 (by decide),
    (schema_property_adapters_characterization
      { stringEnumParam with param_type := "integer" }).2 (by decide)⟩

/-- C7 counterexample: for the type tag `"integer"` (outside the closed
enumeration) the two adapters' property objects differ at the key `"type"`,
so they are not equal for every parameter descriptor. -/
theorem schema_property_adapters_differ_unrecognized :
    ¬ propEquiv (mcpParamProp { name := "p", param_type := "integer", description := "d" })
      (openaiParamProp { name := "p", param_type := "integer", description := "d" }) := by
  intro h
  exact absurd (h "type") (by decide)

/-- The round-trip descriptor of the claim: `param_type="string"`,
`enum_values=["a","b"]`, `default="a"` (name, description and required flag
left free). -/
def roundTripParam (name desc : String) (req : Bool) : ToolParameter :=
  { name := name, param_type := "string", description := desc, required := req,
    default := PyVal.str "a", enum_values := some [PyVal.str "a", PyVal.str "b"] }

/-- The JSON-Schema property object the claim says the round-trip descriptor
maps to: `{"type":"string","enum":["a","b"],"default":"a"}`. -/
def claimedRoundTripProp : List (String × JVal) :=
  [("type", JVal.prim (PyVal.str "string")),
   ("enum", JVal.arr [PyVal.str "a", PyVal.str "b"]),
   ("default", JVal.prim (PyVal.str "a"))]

theorem mcp_roundTrip_eval (name desc : String) (req : Bool) :
    mcpParamProp (roundTripParam name desc req) =
      [("description", JVal.prim (PyVal.str desc)),
       ("type", JVal.prim (PyVal.str "string")),
       ("enum", JVal.arr [PyVal.str "a", PyVal.str "b"]),
       ("default", JVal.prim (PyVal.str "a"))] := by
  simp [mcpParamProp, roundTripParam, dictInsert, enumTruthy, typeMappingGet, recognizedTypes]

theorem openai_roundTrip_eval (name desc : String) (req : Bool) :
    openaiParamProp (roundTripParam name desc req) =
      [("type", JVal.prim (PyVal.str "string")),
       ("description", JVal.prim (PyVal.str desc)),
       ("enum", JVal.arr [PyVal.str "a", PyVal.str "b"]),
       ("default", JVal.prim (PyVal.str "a"))] := by
  simp [openaiParamProp, roundTripParam, dictInsert, enumTruthy]

/-- C8 (amended): the round-trip descriptor maps, in both adapters, to the
property object holding the three claimed pairs
`"type":"string"`, `"enum":["a","b"]`, `"default":"a"` **plus** the
always-emitted `"description"` pair. -/
theorem roundtrip_prop_eq_claimed_plus_description (name desc : String) (req : Bool) :
    propEquiv (mcpParamProp (roundTripParam name desc req))
      (claimedRoundTripProp ++ [("description", JVal.prim (PyVal.str desc))]) ∧
    propEquiv (openaiParamProp (roundTripParam name desc req))
      (claimedRoundTripProp ++ [("description", JVal.prim (PyVal.str desc))]) := by
  constructor
  · intro k
    rw [mcp_roundTrip_eval]
    by_cases h1 : "description" = k
    · subst h1; simp [dictGet, claimedRoundTripProp]
    · by_cases h2 : "type" = k
      · subst h2; simp [dictGet, claimedRoundTripProp]
      · by_cases h3 : "enum" = k
        · subst h3; simp [dictGet, claimedRoundTripProp]
        · by_cases h4 : "default" = k
          · subst h4; simp [dictGet, claimedRoundTripProp]
          · simp [dictGet, claimedRoundTripProp, h1, h2, h3, h4]
  · intro k
    rw [openai_roundTrip_eval]
    by_cases h1 : "description" = k
    · subst h1; simp [dictGet, claimedRoundTripProp]
    · by_cases h2 : "type" = k
      · subst h2; simp [dictGet, claimedRoundTripProp]
      · by_cases h3 : "enum" = k
        · subst h3; simp [dictGet, claimedRoundTripProp]
        · by_cases h4 : "default" = k
          · subst h4; simp [dictGet, claimedRoundTripProp]
          · simp [dictGet, claimedRoundTripProp, h1, h2, h3, h4]

theorem roundtrip_prop_eq_claimed_plus_description_witness :
    propEquiv (mcpParamProp (roundTripParam "p" "d" true))
      (claimedRoundTripProp ++ [("description", JVal.prim (PyVal.str "d"))]) :=
  (roundtrip_prop_eq_claimed_plus_description "p" "d" true).1

/-- C8 counterexample: the emitted property object is not equal to the claimed
three-key object `{"type":"string","enum":["a","b"],"default":"a"}` — for
either adapter — because it also carries the `"description"` key. -/
theorem roundtrip_prop_ne_claimed :
    ¬ propEquiv (mcpParamProp (roundTripParam "p" "d" true)) claimedRoundTripProp ∧
    ¬ propEquiv (openaiParamProp (roundTripParam "p" "d" true)) claimedRoundTripProp := by
  constructor <;> intro h <;> exact absurd (h "description") (by decide)

/-! ## Result formatting shared by the adapters -/

/-- Python `str()` on a scalar value. -/
def pyStr : PyVal → String
  | PyVal.none => "None"
  | PyVal.bool true => "True"
  | PyVal.bool false => "False"
  | PyVal.int n => toString n
  | PyVal.str s => s

/-- JSON string escaping for quote and backslash (control and non-ASCII
escaping is not exercised by any claim and is left unmodelled). -/
def jsonEscapeStr (s : String) : String :=
  s.data.foldr
    (fun c acc =>
      (if c = '\x22' ∨ c = '\\' then String.mk ['\\', c] else String.mk [c]) ++ acc)
    ""

/-- Embedding of `json.dumps` on a scalar value (an `indent=2` argument does not change the
rendering of a scalar). -/
def jsonDumps : PyVal → String
  | PyVal.none => "null"
  | PyVal.bool true => "true"
  | PyVal.bool false => "false"
  | PyVal.int n => toString n
  | PyVal.str s => "\x22" ++ jsonEscapeStr s ++ "\x22"

/-- Embedding of `_format_tool_result` (identical in all three adapters): JSON-kind content
is dumped, every other kind is stringified. -/
def formatToolResult (r : ToolResult) : String :=
  if r.result_type = "json" then jsonDumps r.content else pyStr r.content

/-- Rendering of an `Optional[str]` inside an f-string: `None` prints as
"None". -/
def strOfOptional : Option String → String
  | Option.none => "None"
  | some s => s

/-- Outcome of `await tool.execute(**arguments)` as observed by an adapter:
a returned `ToolResult`, a raised pydantic `ValidationError`, or any other
raised exception. -/
inductive ExecOutcome where
  | ok (r : ToolResult)
  | validationError (msg : String)
  | exc (msg : String)
deriving DecidableEq, Repr

/-! ## MCP adapter (`MCPToolServer.call_tool` in `src/interfaces/mcp_server.py`) -/

structure TextContent where
  type : String
  text : String
deriving DecidableEq, Repr

/-- Constructor shorthand for `TextContent(type="text", text=...)`. -/
def mkTextContent (t : String) : TextContent := { type := "text", text := t }

/-- Embedding of `mcp.types.CallToolResult` (its `isError` field defaults to `False`). -/
structure CallToolResult where
  content : List TextContent
  isError : Bool := false
deriving DecidableEq, Repr

/-- The `call_tool` handler.  `registry.get_tool(name)` either returns a
(truthy) instance or raises `ValueError`, so the `if not tool` branch of the
source is dead; the `ValueError` is caught by the generic `except Exception`
branch, producing the "Tool execution error" message.  The handler returns in
every case — no exception escapes. -/
def mcpCallTool (st : RegistryState) (name : String) (arguments : List (String × PyVal))
    (exec : ToolInstance → List (String × PyVal) → ExecOutcome) : CallToolResult :=
  match ToolRegistry.get_tool st name Option.none with
  | Except.error e =>
    { content := [mkTextContent ("Tool execution error for \x27" ++ name ++ "\x27: " ++ e)],
      isError := true }
  | Except.ok (tool, _) =>
    match exec tool arguments with
    | ExecOutcome.ok result =>
      if result.success then
        { content := [mkTextContent (formatToolResult result)] }
      else
        { content :=
            [mkTextContent ("Tool execution failed: " ++ strOfOptional result.error_message)],
          isError := true }
    | ExecOutcome.validationError msg =>
      { content :=
          [mkTextContent ("Parameter validation failed for \x27" ++ name ++ "\x27: " ++ msg)],
        isError := true }
    | ExecOutcome.exc msg =>
      { content :=
          [mkTextContent ("Tool execution error for \x27" ++ name ++ "\x27: " ++ msg)],
        isError := true }

/-! ## Stdio adapter (`AIToolsStdioMCP.handle_call_tool` in
`src/ai_tools_stdio_mcp.py`) -/

/-- The `tools/call` response dictionary: the success shape carries only
`content`, the error shape additionally `"isError": True`. -/
structure StdioToolResponse where
  content : List TextContent
  isError : Option Bool := Option.none
deriving DecidableEq, Repr

def stdioErrorResponse (msg : String) : StdioToolResponse :=
  { content := [mkTextContent msg], isError := some true }

/-- The `handle_call_tool` handler.  `params.get("name")` is embedded as an
optional string; a missing or empty (falsy) name raises
`ValueError("Tool name is required")`, which — like every other exception —
is caught and rendered as a "Tool execution error" response. -/
def stdioHandleCallTool (st : RegistryState) (nameArg : Option String)
    (arguments : List (String × PyVal))
    (exec : ToolInstance → List (String × PyVal) → ExecOutcome) : StdioToolResponse :=
  match nameArg with
  | Option.none => stdioErrorResponse ("Tool execution error: " ++ "Tool name is required")
  | some n =>
    if n = "" then stdioErrorResponse ("Tool execution error: " ++ "Tool name is required")
    else
      match ToolRegistry.get_tool st n Option.none with
      | Except.error e => stdioErrorResponse ("Tool execution error: " ++ e)
      | Except.ok (tool, _) =>
        match exec tool arguments with
        | ExecOutcome.ok result =>
          if result.success then
            { content := [mkTextContent (formatToolResult result)] }
          else
            { content :=
                [mkTextContent ("Error: " ++ strOfOptional result.error_message)],
              isError := some true }
        | ExecOutcome.validationError msg =>
          stdioErrorResponse ("Tool execution error: " ++ msg)
        | ExecOutcome.exc msg =>
          stdioErrorResponse ("Tool execution error: " ++ msg)

/-! ## OpenAI adapter (`src/interfaces/openai_api.py`) -/

/-- One inbound tool call of the chat-completions request: its id, the
function name, and the result of the (optional) `json.loads` on the arguments
(`Except.error` embeds a raised `JSONDecodeError`). -/
structure ChatToolCall where
  id : String
  name : String
  argsParse : Except String (List (String × PyVal))
deriving DecidableEq, Repr

structure ToolCallResult where
  tool_call_id : String
  role : String := "tool"
  content : String
deriving DecidableEq, Repr

/-- The body of the per-tool-call loop of `chat_completions`: every exception
(argument decoding, registry lookup, execution) is caught and rendered as a
"Tool execution failed" content string; a returned result with
`success=False` is rendered as `"Error: <error_message>"`. -/
def processToolCall (st : RegistryState)
    (exec : ToolInstance → List (String × PyVal) → ExecOutcome)
    (tc : ChatToolCall) : ToolCallResult :=
  match tc.argsParse with
  | Except.error msg =>
    { tool_call_id := tc.id, content := "Tool execution failed: " ++ msg }
  | Except.ok args =>
    match ToolRegistry.get_tool st tc.name Option.none with
    | Except.error e =>
      { tool_call_id := tc.id, content := "Tool execution failed: " ++ e }
    | Except.ok (tool, _) =>
      match exec tool args with
      | ExecOutcome.ok result =>
        if result.success then
          { tool_call_id := tc.id, content := formatToolResult result }
        else
          { tool_call_id := tc.id,
            content := "Error: " ++ strOfOptional result.error_message }
      | ExecOutcome.validationError msg =>
        { tool_call_id := tc.id, content := "Tool execution failed: " ++ msg }
      | ExecOutcome.exc msg =>
        { tool_call_id := tc.id, content := "Tool execution failed: " ++ msg }

structure ChatResponseToolCall where
  id : String
  type : String
  functionName : String
  functionArguments : String
deriving DecidableEq, Repr

structure ChatChoice where
  index : Nat
  role : String
  content : Option String
  tool_calls : List ChatResponseToolCall
  finish_reason : String
deriving DecidableEq, Repr

/-- The `ChatCompletionResponse` the endpoint synthesizes (the freshly drawn
uuid `id` and `created` timestamp are not modelled; no field of the response
flags errors). -/
structure ChatCompletionResponse where
  object : String
  model : String
  choices : List ChatChoice
  usage : List (String × Nat)
deriving DecidableEq, Repr

/-- The chat-completions tool-call loop and response assembly, applied to the
tool calls of the last tool-call-bearing message (a request without one is
rejected with HTTP 400 before this point). -/
def chatCompletions (st : RegistryState) (model : String) (tcs : List ChatToolCall)
    (exec : ToolInstance → List (String × PyVal) → ExecOutcome) :
    ChatCompletionResponse :=
  let tool_results := tcs.map (processToolCall st exec)
  let mkCall : ToolCallResult → ChatResponseToolCall := fun r =>
    { id := r.tool_call_id, type := "function", functionName := "tool_result",
      functionArguments :=
        "\x7b\x22content\x22: " ++ jsonDumps (PyVal.str r.content) ++ "\x7d" }
  let choice : ChatChoice :=
    { index := 0, role := "assistant", content := Option.none,
      tool_calls := tool_results.map mkCall, finish_reason := "tool_calls" }
  { object := "chat.completion", model := model, choices := [choice],
    usage := [("prompt_tokens", 0), ("completion_tokens", 0), ("total_tokens", 0)] }

/-- Embedding of `fastapi.HTTPException`, i.e. a transport-level HTTP error response. -/
structure HTTPException where
  status_code : Nat
  detail : String
deriving DecidableEq, Repr

/-- The JSON body `execute_tool_direct` returns on the non-exception path. -/
structure DirectExecResponse where
  success : Bool
  result_type : String
  content : PyVal
  metadata : List (String × PyVal)
  error_message : Option String
deriving DecidableEq, Repr

/-- Embedding of `execute_tool_direct` (`POST /v1/tools/execute`): returns the raw result
fields on the non-exception path; any exception — including the registry's
`ValueError` for an unknown tool — is re-raised as `HTTPException(500)`. -/
def executeToolDirect (st : RegistryState) (tool_name : String)
    (arguments : List (String × PyVal))
    (exec : ToolInstance → List (String × PyVal) → ExecOutcome) :
    Except HTTPException DirectExecResponse :=
  match ToolRegistry.get_tool st tool_name Option.none with
  | Except.error e => Except.error { status_code := 500, detail := e }
  | Except.ok (tool, _) =>
    match exec tool arguments with
    | ExecOutcome.ok result =>
      Except.ok { success := result.success, result_type := result.result_type,
                  content := result.content, metadata := result.metadata,
                  error_message := result.error_message }
    | ExecOutcome.validationError msg =>
      Except.error { status_code := 500, detail := msg }
    | ExecOutcome.exc msg =>
      Except.error { status_code := 500, detail := msg }

theorem get_tool_ok_of_registered {st : RegistryState} {n : String} {cls : ToolClass}
    (hreg : dictGet st.tools n = some cls) (c : Option (List (String × PyVal))) :
    ∃ i st', ToolRegistry.get_tool st n c = Except.ok (i, st') := by
  cases hq : dictGet st.instances (cacheKey n c) with
  | some j =>
    refine ⟨j, st, ?_⟩
    unfold ToolRegistry.get_tool
    simp only [hq]
  | none =>
    refine ⟨{ cls := cls, config := c, instId := st.nextId },
      { st with instances := dictInsert st.instances (cacheKey n c) ⟨cls, c, st.nextId⟩,
                nextId := st.nextId + 1 }, ?_⟩
    unfold ToolRegistry.get_tool
    simp only [hq, hreg]

/-- C3 (amended): when a tool (registered, resolvable) executes and returns a
result with `success=False`, the MCP handler, the stdio handler and the
direct-execution endpoint produce error-flagged responses carrying the
result's `error_message` (and never a success-flagged response or an escaping
exception), while the chat-completions loop renders the failure as the
content string `"Error: <error_message>"` inside an ordinary, unflagged
`tool_calls` response. -/
theorem adapters_report_tool_failure (st : RegistryState) (name : String) (cls : ToolClass)
    (arguments : List (String × PyVal)) (r : ToolResult) (tcid : String)
    (hreg : dictGet st.tools name = some cls) (hname : ¬ name = "")
    (exec : ToolInstance → List (String × PyVal) → ExecOutcome)
    (hexec : ∀ i a, exec i a = ExecOutcome.ok r)
    (hfail : r.success = false) :
    mcpCallTool st name arguments exec =
      { content := [mkTextContent ("Tool execution failed: " ++ strOfOptional r.error_message)],
        isError := true } ∧
    stdioHandleCallTool st (some name) arguments exec =
      { content := [mkTextContent ("Error: " ++ strOfOptional r.error_message)],
        isError := some true } ∧
    processToolCall st exec { id := tcid, name := name, argsParse := Except.ok arguments } =
      { tool_call_id := tcid, content := "Error: " ++ strOfOptional r.error_message } ∧
    executeToolDirect st name arguments exec =
      Except.ok { success := false, result_type := r.result_type, content := r.content,
                  metadata := r.metadata, error_message := r.error_message } := by
  obtain ⟨tool, st', hok⟩ := get_tool_ok_of_registered hreg Option.none
  refine ⟨?_, ?_, ?_, ?_⟩
  · unfold mcpCallTool
    rw [hok]
    simp [hexec, hfail]
  · unfold stdioHandleCallTool
    simp [hname, hok, hexec, hfail]
  · unfold processToolCall
    rw [hok]
    simp [hexec, hfail]
  · unfold executeToolDirect
    rw [hok]
    simp [hexec, hfail]

def rFail : ToolResult :=
  { success := false, result_type := "error", content := PyVal.none,
    error_message := some "boom" }

def execFailC : ToolInstance → List (String × PyVal) → ExecOutcome :=
  fun _ _ => ExecOutcome.ok rFail

def rOkRes : ToolResult :=
  { success := true, result_type := "text", content := PyVal.str "fine" }

def execOkC : ToolInstance → List (String × PyVal) → ExecOutcome :=
  fun _ _ => ExecOutcome.ok rOkRes

theorem adapters_report_tool_failure_witness :
    mcpCallTool sampleState "echo" [] execFailC =
      { content := [mkTextContent ("Tool execution failed: " ++ strOfOptional rFail.error_message)],
        isError := true } :=
  (adapters_report_tool_failure sampleState "echo" sampleClass [] rFail "1"
    (by decide) (by decide) execFailC (fun _ _ => rfl) rfl).1

def tc0 : ChatToolCall := { id := "1", name := "echo", argsParse := Except.ok [] }

/-- Erase the embedded per-call content strings of a chat-completions
response, keeping every other field. -/
def chatEraseArguments (resp : ChatCompletionResponse) : ChatCompletionResponse :=
  let eraseCall := fun (t : ChatResponseToolCall) => { t with functionArguments := "" }
  let eraseChoice := fun (c : ChatChoice) => { c with tool_calls := c.tool_calls.map eraseCall }
  { resp with choices := resp.choices.map eraseChoice }

/-- C3 counterexample: for a tool whose execute returns `success=False`, the
chat-completions response is **not** error-flagged: apart from the embedded
content strings it is identical to the response for a successful execution —
same `"tool_calls"` finish reason, no field marking an error. -/
theorem chat_failure_response_unflagged :
    chatEraseArguments (chatCompletions sampleState "m" [tc0] execFailC) =
      chatEraseArguments (chatCompletions sampleState "m" [tc0] execOkC) ∧
    (chatCompletions sampleState "m" [tc0] execFailC).choices.map ChatChoice.finish_reason =
      ["tool_calls"] := by decide

/-- C6 (amended): an unknown tool name is reported as a "Tool not found"
message naming the tool in an error-flagged body by the MCP and stdio
handlers, and embedded in the tool-call content by the chat-completions loop,
but the direct-execution endpoint `POST /v1/tools/execute` surfaces it as a
transport-level `HTTPException(500)` whose detail names the tool. -/
theorem adapters_unknown_tool (st : RegistryState) (n : String)
    (arguments : List (String × PyVal)) (tcid : String)
    (hcache : WellFormedCache st) (hn : dictGet st.tools n = Option.none) (hname : ¬ n = "")
    (exec : ToolInstance → List (String × PyVal) → ExecOutcome) :
    mcpCallTool st n arguments exec =
      { content := [mkTextContent
          ("Tool execution error for \x27" ++ n ++ "\x27: " ++ ("Tool not found: " ++ n))],
        isError := true } ∧
    stdioHandleCallTool st (some n) arguments exec =
      stdioErrorResponse ("Tool execution error: " ++ ("Tool not found: " ++ n)) ∧
    processToolCall st exec { id := tcid, name := n, argsParse := Except.ok arguments } =
      { tool_call_id := tcid,
        content := "Tool execution failed: " ++ ("Tool not found: " ++ n) } ∧
    executeToolDirect st n arguments exec =
      Except.error { status_code := 500, detail := "Tool not found: " ++ n } := by
  have herr := get_tool_error_of_unregistered st n Option.none hcache hn
  refine ⟨?_, ?_, ?_, ?_⟩
  · unfold mcpCallTool
    rw [herr]
  · unfold stdioHandleCallTool
    simp [hname, herr]
  · unfold processToolCall
    rw [herr]
  · unfold executeToolDirect
    rw [herr]

theorem adapters_unknown_tool_witness :
    mcpCallTool sampleState "missing" [] execFailC =
      { content := [mkTextContent
          ("Tool execution error for \x27" ++ "missing" ++ "\x27: " ++
            ("Tool not found: " ++ "missing"))],
        isError := true } :=
  (adapters_unknown_tool sampleState "missing" [] "1"
    goodState_sample.2.1 (by decide) (by decide) execFailC).1

/-- C6 counterexample: the direct-execution endpoint reports an unknown tool
as `HTTPException(500)` — a transport-level error — instead of the
error-flagged structured body the other adapters return. -/
theorem direct_unknown_tool_http_500 :
    executeToolDirect sampleState "missing" [] execFailC =
      Except.error { status_code := 500, detail := "Tool not found: missing" } := by decide

end AITools
